import Mathlib

/-!
Verification of the "shall" shell (src/token.c, src/parser.c, src/shall.c,
src/exec.c) against its natural-language specification.

The C code is shallowly embedded: the pull-based tokenizer and parser become
state machines consuming an explicit `List Char` / `List Token` input; the
byte source's EOF is the end of the input list; C strings become `List Char`
(without the trailing null terminator, which is a representation detail);
`fprintf(stderr, ...)` diagnostics become an explicit log of
(line number, message) pairs.
-/

namespace Shall

/-! ## Tokenizer (src/token.c) -/

/-- Token type, mirroring `enum token_type` in src/shall.h.  `str` carries the
accumulated characters of a `TOKEN_STRING` token. -/
inductive Token where
  | eof
  | semi
  | eoln
  | amp
  | gt
  | lt
  | cbOpen
  | cbClose
  | str (s : List Char)
deriving DecidableEq, Repr

/-- Tokenizer state, mirroring the `enum` in `struct tokenizer` (src/token.c).
`buffered c` is `TOKENIZER_BUFFERED` with the buffered character `c`. -/
inductive TokState where
  | neutral
  | buffered (c : Char)
  | esc
  | sq
  | dq
  | eofS
deriving DecidableEq, Repr

/-- The mutable fields of `struct tokenizer` that matter to the semantics:
the state and the text accumulator (`string`/`strlen`); `none` models the
null `string` pointer. -/
structure Tokenizer where
  state : TokState
  acc : Option (List Char)
deriving DecidableEq, Repr

/-- `tokenizer_string` (src/token.c line 81): flush the accumulator as a
`TOKEN_STRING` token, reset the accumulator and move to `TOKENIZER_NEUTRAL`.
(The C function appends a null terminator to the heap string; the model keeps
just the characters.) -/
def tokenizer_string (s : List Char) : Token × Tokenizer :=
  (Token.str s, ⟨TokState.neutral, none⟩)

/-- `tokenizer_buffer` (src/token.c line 95): if no text is accumulated,
return the special token `tt`; otherwise flush the text first and remember
the special character `c` in `TOKENIZER_BUFFERED` for the next call. -/
def tokenizer_buffer (c : Char) (tt : Token) (acc : Option (List Char)) :
    Token × Tokenizer :=
  match acc with
  | none => (tt, ⟨TokState.neutral, none⟩)
  | some s => (Token.str s, ⟨TokState.buffered c, none⟩)

/-- The separator characters of src/token.c line 168: space, tab, carriage
return and the null byte. -/
def isSep (c : Char) : Bool :=
  c = ' ' || c = '\t' || c = '\r' || c = Char.ofNat 0

/-- One iteration of the `for (;;)` loop body of `tokenizer_next`
(src/token.c lines 146-220) for a non-EOF character `c` in state `st` with
accumulator `acc`.  `Sum.inl` is a `return` from the C loop; `Sum.inr` is a
`break` that continues the loop with a new state and accumulator. -/
def procChar (c : Char) (st : TokState) (acc : Option (List Char)) :
    (Token × Tokenizer) ⊕ (TokState × Option (List Char)) :=
  match st with
  | TokState.neutral =>
    if c = '<' then Sum.inl (tokenizer_buffer c Token.lt acc)
    else if c = '>' then Sum.inl (tokenizer_buffer c Token.gt acc)
    else if c = '&' then Sum.inl (tokenizer_buffer c Token.amp acc)
    else if c = '{' then Sum.inl (tokenizer_buffer c Token.cbOpen acc)
    else if c = '}' then Sum.inl (tokenizer_buffer c Token.cbClose acc)
    else if c = ';' then Sum.inl (tokenizer_buffer c Token.semi acc)
    else if c = '\n' then Sum.inl (tokenizer_buffer c Token.eoln acc)
    else if isSep c then
      match acc with
      | some s => Sum.inl (tokenizer_string s)
      | none => Sum.inr (TokState.neutral, none)
    else if c = '\\' then Sum.inr (TokState.esc, acc)
    else if c = '\'' then Sum.inr (TokState.sq, acc)
    else if c = '"' then Sum.inr (TokState.dq, acc)
    else Sum.inr (TokState.neutral, some (acc.getD [] ++ [c]))
  | TokState.esc => Sum.inr (TokState.neutral, some (acc.getD [] ++ [c]))
  | TokState.sq =>
    if c = '\'' then Sum.inr (TokState.neutral, acc)
    else Sum.inr (TokState.sq, some (acc.getD [] ++ [c]))
  | TokState.dq =>
    if c = '"' then Sum.inr (TokState.neutral, acc)
    else Sum.inr (TokState.dq, some (acc.getD [] ++ [c]))
  | _ => Sum.inr (st, acc)

/-- `tokenizer_eof` (src/token.c line 112): at end of input, flush any pending
text as a final `TOKEN_STRING` (which resets the state to `TOKENIZER_NEUTRAL`,
exactly as `tokenizer_string` does in the C code), otherwise return the EOF
token in state `TOKENIZER_EOF`. -/
def tokenizer_eof (acc : Option (List Char)) : Token × Tokenizer × List Char :=
  match acc with
  | none => (Token.eof, ⟨TokState.eofS, none⟩, [])
  | some s =>
    let (tok, t) := tokenizer_string s
    (tok, t, [])

/-- The main loop of `tokenizer_next` (src/token.c lines 135-221), reading
characters from the input list until a token is produced.  Exhaustion of the
input list is the reader returning EOF. -/
def tokLoop : TokState → Option (List Char) → List Char →
    Token × Tokenizer × List Char
  | _, acc, [] => tokenizer_eof acc
  | st, acc, c :: rest =>
    match procChar c st acc with
    | Sum.inl (tok, t) => (tok, t, rest)
    | Sum.inr (st2, acc2) => tokLoop st2 acc2 rest

/-- `tokenizer_next` (src/token.c line 128): return the next token, the new
tokenizer state, and the unconsumed input.  A buffered character is processed
first (in state `TOKENIZER_NEUTRAL`), consuming no input. -/
def tokenizer_next (t : Tokenizer) (input : List Char) :
    Token × Tokenizer × List Char :=
  match t.state with
  | TokState.eofS => (Token.eof, t, input)
  | TokState.buffered c =>
    match procChar c TokState.neutral t.acc with
    | Sum.inl (tok, t2) => (tok, t2, input)
    | Sum.inr (st2, acc2) => tokLoop st2 acc2 input
  | TokState.neutral => tokLoop TokState.neutral t.acc input
  | TokState.esc => tokLoop TokState.esc t.acc input
  | TokState.sq => tokLoop TokState.sq t.acc input
  | TokState.dq => tokLoop TokState.dq t.acc input

/-- Repeatedly call `tokenizer_next` until the EOF token, collecting the
tokens.  Each call before EOF consumes at least one input character per
emitted token, so `input.length + 2` calls always suffice; the fuel only makes
the recursion structural. -/
def tokGo : Nat → Tokenizer → List Char → List Token
  | 0, _, _ => []
  | fuel + 1, t, input =>
    match tokenizer_next t input with
    | (Token.eof, _, _) => [Token.eof]
    | (tok, t2, rest) => tok :: tokGo fuel t2 rest

/-- The full token stream of an input, starting from the freshly created
tokenizer (`tokenizer_create`: zeroed state, null string). -/
def tokenize (input : List Char) : List Token :=
  tokGo (input.length + 2) ⟨TokState.neutral, none⟩ input

/-! ## Parser (src/parser.c) -/

/-- Element type, mirroring `enum element_type` in src/shall.h.  File
descriptors are `Int` (the values produced by `atoi`). -/
inductive Element where
  | arg (s : List Char)
  | redirFileIn (fd : Int) (name : List Char)
  | redirFileOut (fd : Int) (name : List Char)
  | redirFileAppend (fd : Int) (name : List Char)
  | redirFdIn (fd1 fd2 : Int)
  | redirFdOut (fd1 fd2 : Int)
  | semi
  | background
  | eoln
  | error
  | eof
deriving DecidableEq, Repr

/-- Whether `c` is one of C `isspace`'s characters, as skipped by `atoi`. -/
def isSpaceC (c : Char) : Bool :=
  c = ' ' || c = '\t' || c = '\n' || c = '\x0b' || c = '\x0c' || c = '\r'

/-- The digit-accumulating loop of C `atoi`. -/
def atoiDigits : List Char → Nat → Nat
  | [], n => n
  | c :: cs, n =>
    if c.isDigit then atoiDigits cs (n * 10 + (c.toNat - 48)) else n

/-- C `atoi`: skip leading whitespace, read an optional sign and then digits
up to the first non-digit; anything unparsable yields 0. -/
def atoi (s : List Char) : Int :=
  match s.dropWhile isSpaceC with
  | '-' :: cs => -(atoiDigits cs 0 : Int)
  | '+' :: cs => (atoiDigits cs 0 : Int)
  | cs => (atoiDigits cs 0 : Int)

/-- Diagnostics written with `fprintf(stderr, ...)`: the parser's line number
paired with the message text. -/
abbrev Log : Type := List (Nat × String)

/-- `MAX_TOKENS` (src/parser.c line 49): the bound of the pending-token
window, the length of the longest pattern `'\x7b' string '\x7d' '>' '\x7b' string '\x7d'`. -/
def MAX_TOKENS : Nat := 7

/-- The part of `parser_match` (src/parser.c lines 157-224) that matches the
target of a redirection: `dir` is the token at `offset` (`<` or `>`), `fd` the
already-determined file descriptor, `rest` the tokens after `offset`.
`none` is the C `return 0` (incomplete pattern, wait for more tokens). -/
def matchTarget (fd : Int) (dir : Token) (rest : List Token) (line : Nat) :
    Option (Element × Log) :=
  match rest with
  | [] => none
  | Token.gt :: rest2 =>
    if dir ≠ Token.gt then
      some (Element.error, [(line, "expected >>")])
    else
      match rest2 with
      | [] => none
      | Token.str name :: _ =>
        some (Element.redirFileAppend fd name, [])
      | _ => some (Element.error, [(line, "expected >> string")])
  | Token.str name :: _ =>
    if dir = Token.lt then some (Element.redirFileIn fd name, [])
    else some (Element.redirFileOut fd name, [])
  | Token.cbOpen :: rest2 =>
    match rest2 with
    | [] => none
    | Token.str s2 :: rest3 =>
      match rest3 with
      | [] => none
      | Token.cbClose :: _ =>
        if dir = Token.lt then some (Element.redirFdIn fd (atoi s2), [])
        else some (Element.redirFdOut fd (atoi s2), [])
      | _ => some (Element.error, [(line, "expected a '\x7d'")])
    | _ => some (Element.error, [(line, "expected a file descriptor")])
  | _ => some (Element.error, [(line, "expected file or fd")])

/-- `parser_match` (src/parser.c line 104): test whether the pending-token
window is a complete pattern.  `none` is the C `return 0` (strict prefix of a
production; wait for the next token); otherwise the matched element (possibly
`Element.error`) together with the diagnostics printed.  The `assert`s of the
C code guard unreachable shapes; as in a build with asserts disabled, the
model simply proceeds on them. -/
def parser_match (toks : List Token) (line : Nat) : Option (Element × Log) :=
  match toks with
  | [] => none
  | Token.str s :: _ => some (Element.arg s, [])
  | Token.lt :: rest => matchTarget 0 Token.lt rest line
  | Token.gt :: rest => matchTarget 1 Token.gt rest line
  | Token.cbOpen :: rest =>
    match rest with
    | [] => none
    | Token.str s :: rest2 =>
      match rest2 with
      | [] => none
      | Token.cbClose :: rest3 =>
        match rest3 with
        | [] => none
        | Token.lt :: rest4 => matchTarget (atoi s) Token.lt rest4 line
        | Token.gt :: rest4 => matchTarget (atoi s) Token.gt rest4 line
        | _ => some (Element.error, [(line, "expected a redirection character")])
      | _ => some (Element.error, [(line, "expected a '\x7d'")])
    | _ => some (Element.error, [(line, "expected a file descriptor")])
  | _ => some (Element.error, [(line, "unexpected token")])

/-- Parser state, mirroring the `enum` in `struct parser` (src/parser.c
line 52). -/
inductive PState where
  | neutral
  | error
  | eofS
deriving DecidableEq, Repr

/-- The mutable fields of `struct parser`: the state, the pending-token
window `tokens`/`ntokens`, and the line counter. -/
structure Parser where
  state : PState
  toks : List Token
  line : Nat
deriving DecidableEq, Repr

/-- `parser_create` (src/parser.c line 79): zeroed state, line counter 1. -/
def parser_create : Parser := ⟨PState.neutral, [], 1⟩

/-- `parser_next` (src/parser.c line 231): loop pulling tokens until an
element can be returned.  The token source is the input list; its exhaustion
is the tokenizer returning EOF tokens forever.  Returns the element, the new
parser state, the unconsumed tokens and the diagnostics printed.  The single
`none` result is the one genuinely divergent path of the C code: in
`PARSER_ERROR` state an exhausted token source yields EOF tokens forever and
the loop never sees the newline it discards towards (unreachable from the
initial state, since `PARSER_ERROR` itself is unreachable). -/
def parser_next : Parser → List Token →
    Option (Element × Parser × List Token × Log)
  | p, [] =>
    match p.state with
    | PState.neutral =>
      if p.toks.length > 0 then
        some (Element.error, ⟨PState.neutral, [], p.line⟩, [],
          [(p.line, "unrecognized eof")])
      else
        some (Element.eof, p, [], [])
    | PState.error => none
    | PState.eofS => some (Element.eof, p, [], [])
  | p, tok :: rest =>
    match p.state with
    | PState.neutral =>
      match tok with
      | Token.eof =>
        if p.toks.length > 0 then
          some (Element.error, ⟨PState.neutral, [], p.line⟩, rest,
            [(p.line, "unrecognized eof")])
        else
          some (Element.eof, p, rest, [])
      | Token.eoln =>
        if p.toks.length = 0 then
          some (Element.eoln, ⟨PState.neutral, [], p.line + 1⟩, rest, [])
        else
          parser_next ⟨PState.neutral, p.toks, p.line + 1⟩ rest
      | Token.semi =>
        if p.toks.length = 0 then
          some (Element.semi, p, rest, [])
        else
          some (Element.error, ⟨PState.neutral, [], p.line⟩, rest,
            [(p.line, "unrecognized semicolon")])
      | Token.amp =>
        if p.toks.length = 0 then
          some (Element.background, p, rest, [])
        else
          some (Element.error, ⟨PState.neutral, [], p.line⟩, rest,
            [(p.line, "unrecognized ampersand")])
      | _ =>
        let toks2 := p.toks ++ [tok]
        match parser_match toks2 p.line with
        | some (elt, log) =>
          some (elt, ⟨PState.neutral, [], p.line⟩, rest, log)
        | none =>
          if toks2.length = MAX_TOKENS then
            some (Element.error, ⟨PState.error, [], p.line⟩, rest,
              [(p.line, "pattern too long")])
          else
            parser_next ⟨PState.neutral, toks2, p.line⟩ rest
    | PState.error =>
      if tok = Token.eoln then
        parser_next ⟨PState.neutral, [], p.line⟩ rest
      else
        parser_next p rest
    | PState.eofS => some (Element.eof, p, rest, [])

/-- Repeatedly call `parser_next` until the EOF element, collecting elements
and diagnostics.  As with `tokGo`, the fuel only makes recursion structural:
`input.length + 2` calls always suffice. -/
def parseGo : Nat → Parser → List Token → List Element × Log
  | 0, _, _ => ([], [])
  | fuel + 1, p, input =>
    match parser_next p input with
    | none => ([], [])
    | some (elt, p2, rest, log) =>
      if elt = Element.eof then ([elt], log)
      else
        let (es, log2) := parseGo fuel p2 rest
        (elt :: es, log ++ log2)

/-- The full element stream of a token stream, from a fresh parser. -/
def parse (input : List Token) : List Element × Log :=
  parseGo (input.length + 2) parser_create input

/-! ## CommandBuilder (src/shall.c) -/

/-- `struct command` (src/shall.h): the accumulated argument strings and the
redirection elements, in order.  The C `argc` counts one more than
`argv.length` at dispatch time because `gotline` appends a null pointer
before calling `perform`. -/
structure Command where
  argv : List (List Char)
  redirs : List Element
deriving DecidableEq, Repr

/-- A call of `perform(command, background)` made by `gotline`
(src/shall.c line 42): the dispatched argument vector, redirections and
background flag. -/
structure Dispatch where
  argv : List (List Char)
  redirs : List Element
  background : Bool
deriving DecidableEq, Repr

/-- `gotline` (src/shall.c line 39): if the command has at least one
argument, dispatch it (`perform`); then clear the argument and redirection
lists in place. -/
def gotline (command : Command) (background : Bool) :
    Command × Option Dispatch :=
  (⟨[], []⟩,
   if command.argv.length > 0 then
     some ⟨command.argv, command.redirs, background⟩
   else none)

/-- One iteration of the element loop of `interpret` (src/shall.c
lines 70-117): the new accumulator, the dispatch made (if any), and whether
the loop continues (`more`). -/
def interpStep (command : Command) (e : Element) :
    Command × Option Dispatch × Bool :=
  match e with
  | Element.arg s => (⟨command.argv ++ [s], command.redirs⟩, none, true)
  | Element.redirFileIn _ _ | Element.redirFileOut _ _
  | Element.redirFileAppend _ _ | Element.redirFdIn _ _
  | Element.redirFdOut _ _ =>
    (⟨command.argv, command.redirs ++ [e]⟩, none, true)
  | Element.eoln =>
    let (c, d) := gotline command false
    (c, d, true)
  | Element.semi =>
    let (c, d) := gotline command false
    (c, d, true)
  | Element.background =>
    let (c, d) := gotline command true
    (c, d, true)
  | Element.error => (command, none, true)
  | Element.eof =>
    let (c, d) := gotline command false
    (c, d, false)

/-- The element loop of `interpret`, folded over an element list (the loop
exits after the EOF element, which `parse` always puts last). -/
def interpLoop : Command → List Element → List Dispatch
  | _, [] => []
  | command, e :: es =>
    let (c2, d, more) := interpStep command e
    match d with
    | some disp => if more then disp :: interpLoop c2 es else [disp]
    | none => if more then interpLoop c2 es else []

/-- `interpret` (src/shall.c line 56) observed through the `perform` calls it
makes: the dispatches produced by the full tokenizer-parser-builder pipeline
over an input character stream, starting from a zeroed `struct command`. -/
def interpret (input : List Char) : List Dispatch :=
  interpLoop ⟨[], []⟩ (parse (tokenize input)).1

/-! ## Executor (src/exec.c)

`perform` and its helpers perform I/O and process control; they are embedded
as pure functions computing a description of the system calls made, with the
environment-dependent results (the descriptor returned by `open`, the pid
returned by `fork`, the set of already-terminated children) passed in as
parameters. -/

/-- The `open(2)` flag bits used in src/exec.c, as a set of symbolic flags
rather than a bitmask. -/
inductive OFlag where
  | rdonly
  | wronly
  | creat
  | trunc
  | append
deriving DecidableEq, Repr

/-- A system call (or observable output) made while applying redirections in
the child. -/
inductive Sys where
  | print (fd1 fd2 : Int)
  | openF (name : List Char) (flags : List OFlag) (mode : Nat)
  | dup2 (oldfd newfd : Int)
  | closeF (fd : Int)
  | exit1
deriving DecidableEq, Repr

/-- `redir_fd` (src/exec.c line 59): print the leftover debug line, then
`dup2(fd2, fd1)`; on failure `_exit(1)`.  `dup2` fails exactly when the
source descriptor `fd2` is invalid (negative, as when `open` failed).
Returns the trace and whether the process is still alive. -/
def redir_fd (fd1 fd2 : Int) : List Sys × Bool :=
  if fd2 < 0 then
    ([Sys.print fd1 fd2, Sys.dup2 fd2 fd1, Sys.exit1], false)
  else
    ([Sys.print fd1 fd2, Sys.dup2 fd2 fd1], true)

/-- `redir_file` (src/exec.c line 74): `open(name, flags, 0644)` yielding the
descriptor `newfd` (negative on failure), then `redir_fd(fd, newfd)`, then
`close(newfd)` (not reached if `redir_fd` exited). -/
def redir_file (name : List Char) (fd : Int) (flags : List OFlag)
    (newfd : Int) : List Sys × Bool :=
  let (t, alive) := redir_fd fd newfd
  (Sys.openF name flags 420 :: t ++ (if alive then [Sys.closeF newfd] else []),
   alive)

/-- One iteration of the redirection loop of `redir` (src/exec.c
lines 86-105), applying one redirection element.  `newfd` is the descriptor
`open` would return for a file redirection (unused for fd redirections). -/
def redirStep (e : Element) (newfd : Int) : List Sys × Bool :=
  match e with
  | Element.redirFileIn fd name =>
    redir_file name fd [OFlag.rdonly] newfd
  | Element.redirFileOut fd name =>
    redir_file name fd [OFlag.wronly, OFlag.creat, OFlag.trunc] newfd
  | Element.redirFileAppend fd name =>
    redir_file name fd [OFlag.wronly, OFlag.append] newfd
  | Element.redirFdIn fd1 fd2 => redir_fd fd1 fd2
  | Element.redirFdOut fd1 fd2 => redir_fd fd1 fd2
  | _ => ([], true)

/-- The termination status a `wait(2)` call can report. -/
inductive WStatus where
  | exited (code : Nat)
  | signaled (sig : Nat)
deriving DecidableEq, Repr

/-- POSIX `wait(2)` as called in `spawn`: it reaps an arbitrary terminated
child — if an already-terminated (zombie) child exists it returns that one
immediately; only with no zombies does it block until the freshly forked
child `child` terminates and return it. -/
def wait_any (zombies : List (Nat × WStatus)) (child : Nat × WStatus) :
    Nat × WStatus :=
  match zombies with
  | [] => child
  | z :: _ => z

/-- What the parent side of `spawn` did: whether it blocked in `wait`, and
the (pid, status) pair it reported, if any. -/
structure SpawnResult where
  waited : Bool
  reported : Option (Nat × WStatus)
deriving DecidableEq, Repr

/-- The parent side of `spawn` (src/exec.c lines 166-192).  `forkPid` is the
`fork` result (`none` for failure); `childSt` the status the forked child
eventually terminates with; `zombies` the children that already terminated
and were never reaped.  Foreground: one `wait(&status)` call, reporting the
pid and status it returns.  Background: return immediately, no wait. -/
def spawn (background : Bool) (forkPid : Option Nat) (childSt : WStatus)
    (zombies : List (Nat × WStatus)) : SpawnResult :=
  match forkPid with
  | none => ⟨false, none⟩
  | some pid =>
    if background then ⟨false, none⟩
    else
      let r := wait_any zombies (pid, childSt)
      ⟨true, some r⟩

/-- What `perform` (src/exec.c line 270) does with a command, as a symbolic
action.  `restrictErr` is a rejection printed by `builtin_check` or by the
exec-in-background check, with the builtin's body not executed; `usageErr`
is an argument-count error printed inside a builtin's body. -/
inductive Action where
  | restrictErr (msg : String)
  | usageErr (msg : String)
  | cdRun (dir : Option (List Char))
  | sourceRun (files : List (List Char))
  | exitRun (status : Int)
  | execRun (redirs : List Element) (argvTail : Option (List (List Char)))
  | spawnRun (argv : List (List Char)) (redirs : List Element)
      (background : Bool)
deriving DecidableEq, Repr

/-- `builtin_check` (src/exec.c line 256): builtins reject background
execution and any redirection; `some msg` is the printed rejection (C
returns 0), `none` means the check passed. -/
def builtin_check (command : Command) (background : Bool) : Option String :=
  if background then some "can't run builtin commands in background"
  else if command.redirs.length > 0 then
    some "can't redirect I/O for builtin commands"
  else none

/-- `cd` (src/exec.c line 197).  At `perform` time the C `argc` is
`argv.length + 1` (counting the appended null pointer), so `argc > 3` is
`argv.length + 1 > 3`; `argv[1]` is the null pointer when absent. -/
def cd (command : Command) : Action :=
  if command.argv.length + 1 > 3 then Action.usageErr "Usage: cd [directory]"
  else Action.cdRun (command.argv.get? 1)

/-- `source` (src/exec.c line 220): interpret each file argument in turn. -/
def source (command : Command) : Action :=
  Action.sourceRun (command.argv.drop 1)

/-- `do_exit` (src/exec.c line 236): exit with `atoi(argv[1])`, or 0 when
`argv[1]` is the null pointer. -/
def do_exit (command : Command) : Action :=
  if command.argv.length + 1 > 3 then Action.usageErr "Usage: exit [status]"
  else
    match command.argv.get? 1 with
    | none => Action.exitRun 0
    | some s => Action.exitRun (atoi s)

/-- `exec` the builtin (src/exec.c line 247): apply the command's
redirections (unconditionally, before any check), then, if there is a
command word after `exec` (`argc > 2`), replace the process image with it. -/
def exec_builtin (command : Command) : Action :=
  Action.execRun command.redirs
    (if command.argv.length + 1 > 2 then some (command.argv.drop 1) else none)

/-- `perform` (src/exec.c line 270): dispatch on the first argument. -/
def perform (command : Command) (background : Bool) : Action :=
  match command.argv.head? with
  | none => Action.restrictErr "no command"
  | some a0 =>
    if a0 = "cd".toList then
      match builtin_check command background with
      | some msg => Action.restrictErr msg
      | none => cd command
    else if a0 = "source".toList then
      match builtin_check command background with
      | some msg => Action.restrictErr msg
      | none => source command
    else if a0 = "exit".toList then
      match builtin_check command background with
      | some msg => Action.restrictErr msg
      | none => do_exit command
    else if a0 = "exec".toList then
      if background then Action.restrictErr "can't exec in background"
      else exec_builtin command
    else Action.spawnRun command.argv command.redirs background

/-! ## The input class of the round-trip property (spec section 8)

The spec's round-trip property quantifies over "any input containing only
quoted/escaped printable text and no special bytes".  Such an input is a
concatenation of segments: a plain non-special byte, a backslash-escaped
byte, a single-quoted run, or a double-quoted run. -/

/-- One segment of a quoted/escaped-text input. -/
inductive Seg where
  | plain (c : Char)
  | escd (c : Char)
  | squote (s : List Char)
  | dquote (s : List Char)
deriving DecidableEq, Repr

/-- The characters a segment contributes to the input stream. -/
def Seg.render : Seg → List Char
  | Seg.plain c => [c]
  | Seg.escd c => ['\\', c]
  | Seg.squote s => '\'' :: (s ++ ['\''])
  | Seg.dquote s => '"' :: (s ++ ['"'])

/-- The characters a segment contributes to the unescaped/unquoted text. -/
def Seg.payload : Seg → List Char
  | Seg.plain c => [c]
  | Seg.escd c => [c]
  | Seg.squote s => s
  | Seg.dquote s => s

/-- The special bytes of the lexer: the one-byte special tokens, the
separators, and the escape/quote introducers (src/token.c lines 150-181). -/
def isSpecialByte (c : Char) : Bool :=
  c = '<' || c = '>' || c = '&' || c = '{' || c = '}' || c = ';' || c = '\n'
  || isSep c || c = '\\' || c = '\'' || c = '"'

/-- Wellformedness of a segment: a plain byte is not special; a quoted run
does not contain its own closing quote (escapes may carry any byte). -/
def Seg.wf : Seg → Prop
  | Seg.plain c => isSpecialByte c = false
  | Seg.escd _ => True
  | Seg.squote s => '\'' ∉ s
  | Seg.dquote s => '"' ∉ s

instance : DecidablePred Seg.wf := fun g => by
  cases g <;> simp [Seg.wf] <;> infer_instance

/-- The effect on the lexer's text accumulator of appending the characters
`p`: appending nothing leaves it alone (a null pointer stays null — the
heart of the empty-quotes behavior), appending anything else makes it
non-null. -/
def accPush (a : Option (List Char)) : List Char → Option (List Char)
  | [] => a
  | p => some (a.getD [] ++ p)

/-- A run of separator bytes (space, tab, carriage return, null). -/
def IsSepRun (s : List Char) : Prop := ∀ c ∈ s, isSep c = true

instance : DecidablePred IsSepRun := fun s => by
  unfold IsSepRun; infer_instance

/-! ## Claim C1: the accumulator across Error elements -/

/-- C1 counterexample.  On input `foo \x7d bar\n` the matcher emits
`Argument foo`, then `Error` (for the stray brace), then `Argument bar` and
`LineEnd`; the Error element does not clear the accumulator, so the argument
`foo` accumulated before the Error is carried into the command dispatched at
the newline: `perform` is called with argv `[foo, bar]`.  This refutes the
claim that after an error dispatch the accumulator is empty and that
arguments before an Error are never carried over. -/
theorem C1_counterexample :
    (parse (tokenize "foo \x7d bar\n".toList)).1 =
      [Element.arg "foo".toList, Element.error, Element.arg "bar".toList,
       Element.eoln, Element.eof] ∧
    interpret "foo \x7d bar\n".toList =
      [⟨["foo".toList, "bar".toList], [], false⟩] := by
  exact ⟨rfl, rfl⟩

/-- C1 amended: after a dispatch through a terminator element (`gotline`:
LineEnd, Semicolon, Background, EndOfInput) the Command accumulator is
cleared to zero arguments and zero redirections; an Error element, however,
triggers no dispatch and leaves the accumulator untouched, so arguments
accumulated before an Error are carried over into the next dispatched
command. -/
theorem C1_amended :
    (∀ (command : Command) (background : Bool),
       (gotline command background).1 = ⟨[], []⟩) ∧
    (∀ command : Command,
       interpStep command Element.error = (command, none, true)) :=
  ⟨fun _ _ => rfl, fun _ => rfl⟩

/-! ## Claim C4: waiting for the spawned child -/

/-- C4 counterexample.  `spawn` waits with `wait(&status)`, which reaps an
arbitrary terminated child.  With an already-terminated background child
(pid 42) lingering as a zombie, a foreground spawn of child pid 43 reports
pid 42's status and returns while child 43 may still be running — the parent
does not block until that specific forked child terminates. -/
theorem C4_counterexample :
    (spawn false (some 43) (WStatus.exited 0)
        [(42, WStatus.exited 1)]).reported = some (42, WStatus.exited 1) ∧
    (42 : Nat) ≠ 43 :=
  ⟨rfl, by decide⟩

/-- C4 amended: when spawning in the foreground the parent makes exactly one
`wait` call, blocking until an arbitrary child terminates, and reports that
child's exit status or signal — this is the spawned child only when no
earlier-terminated child is pending; when backgrounded (or when fork fails)
it returns immediately without waiting. -/
theorem C4_amended :
    (∀ (pid : Nat) (st : WStatus),
       spawn false (some pid) st [] = ⟨true, some (pid, st)⟩) ∧
    (∀ (pid : Nat) (st : WStatus) (z : Nat × WStatus)
       (zs : List (Nat × WStatus)),
       spawn false (some pid) st (z :: zs) = ⟨true, some z⟩) ∧
    (∀ (pid : Nat) (st : WStatus) (zs : List (Nat × WStatus)),
       spawn true (some pid) st zs = ⟨false, none⟩) :=
  ⟨fun _ _ => rfl, fun _ _ _ _ => rfl, fun _ _ _ => rfl⟩

/-! ## Claim C5: builtins rejecting redirections and background -/

/-- C5 counterexample.  The builtin `exec` does not reject redirections:
`exec ls` with a pending output redirection and no background flag runs the
exec body, applying the redirection, rather than reporting a restriction
error. -/
theorem C5_counterexample :
    perform ⟨["exec".toList, "ls".toList],
        [Element.redirFileOut 1 "f".toList]⟩ false =
      Action.execRun [Element.redirFileOut 1 "f".toList]
        (some ["ls".toList]) ∧
    perform ⟨["exec".toList, "ls".toList],
        [Element.redirFileOut 1 "f".toList]⟩ false ≠
      Action.restrictErr "can't redirect I/O for builtin commands" := by
  exact ⟨rfl, by decide⟩

/-- C5 amended: the builtins `cd`, `source` and `exit` reject both
redirections and background execution through `builtin_check`, reporting a
restriction error without running the builtin body; `exec` rejects only
background execution — with redirections present (and no background flag) it
runs, applying those redirections. -/
theorem C5_amended :
    ∀ (command : Command) (bg : Bool) (a0 : List Char),
      command.argv.head? = some a0 →
      ((a0 = "cd".toList ∨ a0 = "source".toList ∨ a0 = "exit".toList) →
        (bg = true →
          perform command bg =
            Action.restrictErr "can't run builtin commands in background") ∧
        (bg = false → command.redirs ≠ [] →
          perform command bg =
            Action.restrictErr "can't redirect I/O for builtin commands")) ∧
      (a0 = "exec".toList →
        (bg = true →
          perform command bg = Action.restrictErr "can't exec in background") ∧
        (bg = false → perform command bg = exec_builtin command)) := by
  intro command bg a0 h0
  have hhead : ∃ t, command.argv = a0 :: t := by
    cases hargv : command.argv with
    | nil => rw [hargv] at h0; cases h0
    | cons x t =>
      rw [hargv] at h0
      exact ⟨t, by rw [List.head?] at h0; injection h0 with h; rw [h]⟩
  obtain ⟨t, ht⟩ := hhead
  constructor
  · intro h1
    constructor
    · intro hbg; subst hbg
      rcases h1 with rfl | rfl | rfl <;> simp [perform, ht, builtin_check]
    · intro hbg hred; subst hbg
      rcases h1 with rfl | rfl | rfl <;>
        simp [perform, ht, builtin_check, List.length_pos, hred]
  · rintro rfl
    refine ⟨fun hbg => ?_, fun hbg => ?_⟩ <;> subst hbg <;>
      simp [perform, ht]

/-- C5 witness: `cd` with one redirection and no background flag is rejected
by `builtin_check` without its body running. -/
theorem C5_witness :
    perform ⟨["cd".toList], [Element.redirFdOut 2 1]⟩ false =
      Action.restrictErr "can't redirect I/O for builtin commands" :=
  ((C5_amended ⟨["cd".toList], [Element.redirFdOut 2 1]⟩ false "cd".toList
      rfl).1 (Or.inl rfl)).2 rfl (by decide)

/-! ## Claim C6: file redirection open modes and descriptor shuffle -/

/-- C6 counterexample.  An append redirection opens with
`O_WRONLY | O_APPEND` only — there is no `O_CREAT` in its flag set, so the
claimed "write/append/create" mode is wrong: appending to a nonexistent file
fails to open instead of creating it. -/
theorem C6_counterexample :
    (redirStep (Element.redirFileAppend 1 "log".toList) 5).1 =
      [Sys.openF "log".toList [OFlag.wronly, OFlag.append] 420,
       Sys.print 1 5, Sys.dup2 5 1, Sys.closeF 5] ∧
    OFlag.creat ∉ [OFlag.wronly, OFlag.append] := by
  exact ⟨rfl, by decide⟩

/-- C6 amended: a file redirection opens the named path — read-only for
input, write/create/truncate for output, write/append (without create) for
append, each with fixed creation permission 0644 — then duplicates the
opened descriptor onto the target descriptor and closes the opened
descriptor. -/
theorem C6_amended :
    ∀ (name : List Char) (fd newfd : Int), 0 ≤ newfd →
      redirStep (Element.redirFileIn fd name) newfd =
        ([Sys.openF name [OFlag.rdonly] 420, Sys.print fd newfd,
          Sys.dup2 newfd fd, Sys.closeF newfd], true) ∧
      redirStep (Element.redirFileOut fd name) newfd =
        ([Sys.openF name [OFlag.wronly, OFlag.creat, OFlag.trunc] 420,
          Sys.print fd newfd, Sys.dup2 newfd fd, Sys.closeF newfd], true) ∧
      redirStep (Element.redirFileAppend fd name) newfd =
        ([Sys.openF name [OFlag.wronly, OFlag.append] 420, Sys.print fd newfd,
          Sys.dup2 newfd fd, Sys.closeF newfd], true) := by
  intro name fd newfd h
  have h2 : ¬(newfd < 0) := not_lt.mpr h
  refine ⟨?_, ?_, ?_⟩ <;> simp [redirStep, redir_file, redir_fd, h2]

/-- C6 witness: an input redirection of descriptor 0 from file `f`, with the
opened descriptor being 3. -/
theorem C6_witness :
    redirStep (Element.redirFileIn 0 "f".toList) 3 =
      ([Sys.openF "f".toList [OFlag.rdonly] 420, Sys.print 0 3,
        Sys.dup2 3 0, Sys.closeF 3], true) :=
  (C6_amended "f".toList 0 3 (by decide)).1

/-! ## Claim C7: empty commands are never dispatched -/

/-- C7: a Command with zero arguments is never dispatched — `gotline` calls
`perform` only when the argument list is nonempty — and the bare redirection
line `\x7b2\x7d>\x7b1\x7d\n` produces no `perform` call at all. -/
theorem C7_thm :
    (∀ (command : Command) (background : Bool),
       command.argv = [] → (gotline command background).2 = none) ∧
    interpret "{2}>{1}\n".toList = [] := by
  refine ⟨fun command background h => ?_, rfl⟩
  simp [gotline, h]

/-- C7 witness: a command holding one redirection but no argument is not
dispatched. -/
theorem C7_witness :
    (gotline ⟨[], [Element.redirFdOut 2 1]⟩ false).2 = none :=
  C7_thm.1 ⟨[], [Element.redirFdOut 2 1]⟩ false rfl

/-! ## Claim C2: what happens after a grammar mismatch -/

/-- C2 counterexample.  On input `\x7d foo\n` the stray closing brace is a
grammar mismatch and yields an Error element — but the matcher does not enter
ErrorRecovery: the very next token `foo` is matched normally and emitted as
an Argument element before the newline, instead of being discarded. -/
theorem C2_counterexample :
    (parse (tokenize "\x7d foo\n".toList)).1 =
      [Element.error, Element.arg "foo".toList, Element.eoln, Element.eof] ∧
    (parse (tokenize "\x7d foo\n".toList)).2 = [(1, "unexpected token")] := by
  exact ⟨rfl, rfl⟩

/-- C2 amended: when the pending tokens mismatch the grammar, the matcher
emits exactly one Error element (with its line-numbered diagnostic),
discards only the pending-token window, and stays in the Matching state —
subsequent tokens are processed normally, not discarded until a newline.
(The `PARSER_ERROR` discard-until-newline state is entered only by the
pattern-too-long branch, never on a mismatch.) -/
theorem C2_amended :
    ∀ (p : Parser) (tok : Token) (rest : List Token) (log : Log),
      p.state = PState.neutral →
      tok ≠ Token.eof → tok ≠ Token.eoln → tok ≠ Token.semi →
      tok ≠ Token.amp →
      parser_match (p.toks ++ [tok]) p.line = some (Element.error, log) →
      parser_next p (tok :: rest) =
        some (Element.error, ⟨PState.neutral, [], p.line⟩, rest, log) := by
  intro p tok rest log hst h1 h2 h3 h4 hmatch
  obtain ⟨st, toks, line⟩ := p
  simp only at hst
  subst hst
  cases tok <;> simp_all [parser_next]

/-- C2 witness: the stray closing brace at line 1 from a fresh parser. -/
theorem C2_witness :
    parser_next parser_create [Token.cbClose] =
      some (Element.error, ⟨PState.neutral, [], 1⟩, [],
        [(1, "unexpected token")]) :=
  C2_amended parser_create Token.cbClose [] [(1, "unexpected token")]
    rfl (by decide) (by decide) (by decide) (by decide) rfl

/-! ## Claim C3: terminator tokens and the pending-token window -/

/-- C3 counterexample.  A newline arriving while the pending-token window is
non-empty is not a grammar error: on input `\x7b2\n\x7d>out\n` the newline
in the middle of the redirection pattern is silently discarded (only the
line counter advances) and the matcher completes the redirection across it —
no Error element is produced anywhere in the stream. -/
theorem C3_counterexample :
    (parse (tokenize "\x7b2\n\x7d>out\n".toList)).1 =
      [Element.redirFileOut 2 "out".toList, Element.eoln, Element.eof] ∧
    Element.error ∉ (parse (tokenize "\x7b2\n\x7d>out\n".toList)).1 := by
  exact ⟨rfl, by decide⟩

/-- C3 amended: with an empty window, `;`, `&`, `\n` map directly to the
Semicolon, Background and LineEnd elements (newline advancing the line
counter); with a non-empty window, `;` and `&` are grammar errors
(discarding the window), but `\n` is not — it is silently swallowed, only
advancing the line counter, and matching continues with the window intact. -/
theorem C3_amended :
    ∀ (toks : List Token) (line : Nat) (rest : List Token),
      (toks = [] →
        parser_next ⟨PState.neutral, toks, line⟩ (Token.semi :: rest) =
          some (Element.semi, ⟨PState.neutral, toks, line⟩, rest, []) ∧
        parser_next ⟨PState.neutral, toks, line⟩ (Token.amp :: rest) =
          some (Element.background, ⟨PState.neutral, toks, line⟩, rest, []) ∧
        parser_next ⟨PState.neutral, toks, line⟩ (Token.eoln :: rest) =
          some (Element.eoln, ⟨PState.neutral, [], line + 1⟩, rest, [])) ∧
      (toks ≠ [] →
        parser_next ⟨PState.neutral, toks, line⟩ (Token.semi :: rest) =
          some (Element.error, ⟨PState.neutral, [], line⟩, rest,
            [(line, "unrecognized semicolon")]) ∧
        parser_next ⟨PState.neutral, toks, line⟩ (Token.amp :: rest) =
          some (Element.error, ⟨PState.neutral, [], line⟩, rest,
            [(line, "unrecognized ampersand")]) ∧
        parser_next ⟨PState.neutral, toks, line⟩ (Token.eoln :: rest) =
          parser_next ⟨PState.neutral, toks, line + 1⟩ rest) := by
  intro toks line rest
  constructor
  · rintro rfl
    refine ⟨?_, ?_, ?_⟩ <;> simp [parser_next]
  · intro h
    have h0 : ¬(toks.length = 0) := by simpa [List.length_eq_zero] using h
    refine ⟨?_, ?_, ?_⟩ <;> simp [parser_next, h0]

/-- C3 witness: with the window holding a pending `<`, a semicolon is a
grammar error. -/
theorem C3_witness :
    parser_next ⟨PState.neutral, [Token.lt], 1⟩ [Token.semi] =
      some (Element.error, ⟨PState.neutral, [], 1⟩, [],
        [(1, "unrecognized semicolon")]) :=
  ((C3_amended [Token.lt] 1 []).2 (by decide)).1

/-! ## Claim C9: the bounded lookahead window -/

/-- Projection of a `Parser` literal. -/
@[simp] theorem Parser_toks_mk (a : PState) (b : List Token) (c : Nat) :
    (Parser.mk a b c).toks = b := rfl

/-- A call of `matchTarget` that returns "incomplete, wait for more tokens"
has seen at most 2 tokens after the redirection character. -/
theorem matchTarget_none_length (fd : Int) (dir : Token) (rest : List Token)
    (line : Nat) (h : matchTarget fd dir rest line = none) :
    rest.length ≤ 2 := by
  unfold matchTarget at h
  repeat' split at h
  all_goals first | exact Option.noConfusion h | simp

/-- A pending-token window on which `parser_match` returns "incomplete" has
at most 6 tokens: every window of `MAX_TOKENS = 7` tokens resolves, to a
grammar production or to an Error element — never to a silent partial
match. -/
theorem parser_match_none_length (toks : List Token) (line : Nat)
    (h : parser_match toks line = none) : toks.length ≤ 6 := by
  unfold parser_match at h
  repeat' split at h
  all_goals first
    | exact Option.noConfusion h
    | (have h2 := matchTarget_none_length _ _ _ _ h
       simp only [List.length_cons, List.length_nil]
       omega)
    | simp

/-- The pending-token window invariant: a `parser_next` call entered with at
most 6 pending tokens returns with at most 6 pending tokens (so the window,
transiently extended by one appended token inside the call, never exceeds
its bound of `MAX_TOKENS = 7`). -/
theorem parser_next_window :
    ∀ (input : List Token) (p : Parser) (e : Element) (p2 : Parser)
      (rest : List Token) (log : Log),
      parser_next p input = some (e, p2, rest, log) →
      p.toks.length ≤ 6 → p2.toks.length ≤ 6 := by
  intro input
  induction input with
  | nil =>
    intro p e p2 rest log h hp
    obtain ⟨st, toks, line⟩ := p
    replace hp : toks.length ≤ 6 := hp
    cases st <;> simp only [parser_next] at h
    · split at h <;>
        (simp only [Option.some.injEq, Prod.mk.injEq] at h
         obtain ⟨h1, h2, h3, h4⟩ := h
         subst h2
         simpa using hp)
    · exact absurd h (by simp)
    · simp only [Option.some.injEq, Prod.mk.injEq] at h
      obtain ⟨h1, h2, h3, h4⟩ := h
      subst h2
      simpa using hp
  | cons tok rest2 ih =>
    intro p e p2 rest log h hp
    obtain ⟨st, toks, line⟩ := p
    replace hp : toks.length ≤ 6 := hp
    cases st
    case neutral =>
      cases tok <;> simp only [parser_next] at h
      case eof =>
        split at h <;>
          (simp only [Option.some.injEq, Prod.mk.injEq] at h
           obtain ⟨h1, h2, h3, h4⟩ := h
           subst h2
           simpa using hp)
      case eoln =>
        split at h
        · simp only [Option.some.injEq, Prod.mk.injEq] at h
          obtain ⟨h1, h2, h3, h4⟩ := h
          subst h2
          simp
        · exact ih _ _ _ _ _ h (by simpa using hp)
      case semi =>
        split at h <;>
          (simp only [Option.some.injEq, Prod.mk.injEq] at h
           obtain ⟨h1, h2, h3, h4⟩ := h
           subst h2
           simpa using hp)
      case amp =>
        split at h <;>
          (simp only [Option.some.injEq, Prod.mk.injEq] at h
           obtain ⟨h1, h2, h3, h4⟩ := h
           subst h2
           simpa using hp)
      all_goals
        split at h
        · simp only [Option.some.injEq, Prod.mk.injEq] at h
          obtain ⟨h1, h2, h3, h4⟩ := h
          subst h2
          simp
        · split at h
          · simp only [Option.some.injEq, Prod.mk.injEq] at h
            obtain ⟨h1, h2, h3, h4⟩ := h
            subst h2
            simp
          · rename_i hmatch hlen
            refine ih _ _ _ _ _ h ?_
            simp only [MAX_TOKENS, List.length_append, List.length_cons,
              List.length_nil] at hlen
            simp only [Parser_toks_mk, List.length_append, List.length_cons,
              List.length_nil]
            omega
    case error =>
      simp only [parser_next] at h
      split at h
      · exact ih _ _ _ _ _ h (by simp)
      · exact ih _ _ _ _ _ h (by simpa using hp)
    case eofS =>
      simp only [parser_next] at h
      simp only [Option.some.injEq, Prod.mk.injEq] at h
      obtain ⟨h1, h2, h3, h4⟩ := h
      subst h2
      simpa using hp

/-- C9: the pending-token window never exceeds its bound — between calls it
holds at most `MAX_TOKENS - 1 = 6` tokens, so the one token appended inside
a call keeps it within 7 — and a full window of 7 tokens never yields a
silent partial match: `parser_match` resolves every 7-token window (to an
element or an Error), which is why the pattern-too-long Error branch
guarding the bound can never silently overflow. -/
theorem C9_thm :
    (∀ (input : List Token) (p : Parser) (e : Element) (p2 : Parser)
       (rest : List Token) (log : Log),
       parser_next p input = some (e, p2, rest, log) →
       p.toks.length ≤ MAX_TOKENS - 1 → p2.toks.length ≤ MAX_TOKENS - 1) ∧
    (∀ (toks : List Token) (line : Nat),
       toks.length = MAX_TOKENS → parser_match toks line ≠ none) := by
  constructor
  · intro input p e p2 rest log h hp
    exact parser_next_window input p e p2 rest log h hp
  · intro toks line hlen hnone
    have := parser_match_none_length toks line hnone
    rw [hlen] at this
    simp [MAX_TOKENS] at this

/-- C9 witness: a fresh parser fed a lone `<` token (and then end of input)
returns with an empty window. -/
theorem C9_witness :
    (Parser.mk PState.neutral [] 1).toks.length ≤ MAX_TOKENS - 1 :=
  C9_thm.1 [Token.lt] parser_create Element.error
    ⟨PState.neutral, [], 1⟩ [] [(1, "unrecognized eof")]
    (by decide) (by decide)

/-! ## Claim C10: empty quoted strings vanish -/

/-- A separator byte in the neutral state with a null accumulator is
skipped: no token, no state change, no accumulation started. -/
theorem procChar_sep (c : Char) (hc : isSep c = true) :
    procChar c TokState.neutral none =
      Sum.inr (TokState.neutral, none) := by
  simp only [isSep, Bool.or_eq_true, decide_eq_true_eq] at hc
  rcases hc with ((rfl | rfl) | rfl) | rfl <;> decide

/-- The tokenizer loop skips a run of separator bytes. -/
theorem tokLoop_sepRun :
    ∀ (s : List Char), IsSepRun s → ∀ (rest : List Char),
      tokLoop TokState.neutral none (s ++ rest) =
        tokLoop TokState.neutral none rest := by
  intro s
  induction s with
  | nil => intro _ rest; rfl
  | cons c cs ih =>
    intro h rest
    have hc : isSep c = true := h c (List.mem_cons_self c cs)
    have hcs : IsSepRun cs := fun x hx => h x (List.mem_cons_of_mem c hx)
    calc tokLoop TokState.neutral none ((c :: cs) ++ rest)
        = tokLoop TokState.neutral none (cs ++ rest) := by
          rw [List.cons_append]
          simp only [tokLoop, procChar_sep c hc]
      _ = tokLoop TokState.neutral none rest := ih hcs rest

/-- C10: an empty quoted string — `''` or `""` surrounded by separator
bytes — never starts a text accumulation, so the Lexer produces no Text
token at all even though two quote bytes were consumed, and the
GrammarMatcher consequently produces no Argument element: the empty-quoted
argument silently vanishes. -/
theorem C10_thm :
    ∀ (s1 s2 : List Char), IsSepRun s1 → IsSepRun s2 →
      tokenize (s1 ++ '\'' :: '\'' :: s2) = [Token.eof] ∧
      tokenize (s1 ++ '"' :: '"' :: s2) = [Token.eof] ∧
      (parse (tokenize (s1 ++ '\'' :: '\'' :: s2))).1 = [Element.eof] ∧
      (parse (tokenize (s1 ++ '"' :: '"' :: s2))).1 = [Element.eof] := by
  intro s1 s2 h1 h2
  have tail : tokLoop TokState.neutral none s2 =
      (Token.eof, ⟨TokState.eofS, none⟩, []) := by
    have := tokLoop_sepRun s2 h2 []
    rw [List.append_nil] at this
    rw [this]
    rfl
  have hsq : tokenizer_next ⟨TokState.neutral, none⟩
      (s1 ++ '\'' :: '\'' :: s2) = (Token.eof, ⟨TokState.eofS, none⟩, []) := by
    show tokLoop TokState.neutral none _ = _
    rw [tokLoop_sepRun s1 h1]
    have e1 : procChar '\'' TokState.neutral none =
        Sum.inr (TokState.sq, none) := by decide
    have e2 : procChar '\'' TokState.sq none =
        Sum.inr (TokState.neutral, none) := by decide
    simp only [tokLoop, e1, e2]
    exact tail
  have hdq : tokenizer_next ⟨TokState.neutral, none⟩
      (s1 ++ '"' :: '"' :: s2) = (Token.eof, ⟨TokState.eofS, none⟩, []) := by
    show tokLoop TokState.neutral none _ = _
    rw [tokLoop_sepRun s1 h1]
    have e1 : procChar '"' TokState.neutral none =
        Sum.inr (TokState.dq, none) := by decide
    have e2 : procChar '"' TokState.dq none =
        Sum.inr (TokState.neutral, none) := by decide
    simp only [tokLoop, e1, e2]
    exact tail
  have tsq : tokenize (s1 ++ '\'' :: '\'' :: s2) = [Token.eof] := by
    show tokGo ((s1 ++ '\'' :: '\'' :: s2).length + 1 + 1) _ _ = _
    simp only [tokGo, hsq]
  have tdq : tokenize (s1 ++ '"' :: '"' :: s2) = [Token.eof] := by
    show tokGo ((s1 ++ '"' :: '"' :: s2).length + 1 + 1) _ _ = _
    simp only [tokGo, hdq]
  refine ⟨tsq, tdq, ?_, ?_⟩
  · rw [tsq]; rfl
  · rw [tdq]; rfl

/-- C10 witness: `''` surrounded by a space and a tab. -/
theorem C10_witness :
    tokenize (" '' \t".toList) = [Token.eof] ∧
    (parse (tokenize (" '' \t".toList))).1 = [Element.eof] := by
  have h := C10_thm [' '] [' ', '\t'] (by decide) (by decide)
  exact ⟨h.1, h.2.2.1⟩

/-! ## Claim C8: the quoted/escaped-text round trip -/

/-- `accPush` distributes over appending payloads. -/
theorem accPush_append (a : Option (List Char)) (p q : List Char) :
    accPush a (p ++ q) = accPush (accPush a p) q := by
  cases p with
  | nil => simp [accPush]
  | cons x xs =>
    cases q with
    | nil => simp [accPush]
    | cons y ys => simp [accPush, List.append_assoc]

/-- A non-special byte in neutral state is appended to the accumulator. -/
theorem procChar_plain (c : Char) (a : Option (List Char))
    (h : isSpecialByte c = false) :
    procChar c TokState.neutral a =
      Sum.inr (TokState.neutral, some (a.getD [] ++ [c])) := by
  simp only [isSpecialByte, Bool.or_eq_false_iff,
    decide_eq_false_iff_not] at h
  simp_all [procChar]

/-- In the single-quoted state, every byte up to the closing quote is
appended literally, and the closing quote returns to neutral. -/
theorem tokLoop_sq :
    ∀ (s : List Char), '\'' ∉ s → ∀ (a : Option (List Char)) (rest : List Char),
      tokLoop TokState.sq a (s ++ '\'' :: rest) =
        tokLoop TokState.neutral (accPush a s) rest := by
  intro s
  induction s with
  | nil =>
    intro _ a rest
    simp [tokLoop, procChar, accPush]
  | cons c cs ih =>
    intro h a rest
    have hc : ¬(c = '\'') := fun hcc => h (hcc ▸ List.mem_cons_self c cs)
    have e : procChar c TokState.sq a =
        Sum.inr (TokState.sq, some (a.getD [] ++ [c])) := by
      simp [procChar, hc]
    rw [List.cons_append]
    simp only [tokLoop, e]
    rw [ih (fun hm => h (List.mem_cons_of_mem c hm))
      (some (a.getD [] ++ [c])) rest]
    rw [show (c :: cs : List Char) = [c] ++ cs from rfl, accPush_append]
    simp [accPush]

/-- In the double-quoted state, every byte up to the closing quote is
appended literally, and the closing quote returns to neutral. -/
theorem tokLoop_dq :
    ∀ (s : List Char), '"' ∉ s → ∀ (a : Option (List Char)) (rest : List Char),
      tokLoop TokState.dq a (s ++ '"' :: rest) =
        tokLoop TokState.neutral (accPush a s) rest := by
  intro s
  induction s with
  | nil =>
    intro _ a rest
    simp [tokLoop, procChar, accPush]
  | cons c cs ih =>
    intro h a rest
    have hc : ¬(c = '"') := fun hcc => h (hcc ▸ List.mem_cons_self c cs)
    have e : procChar c TokState.dq a =
        Sum.inr (TokState.dq, some (a.getD [] ++ [c])) := by
      simp [procChar, hc]
    rw [List.cons_append]
    simp only [tokLoop, e]
    rw [ih (fun hm => h (List.mem_cons_of_mem c hm))
      (some (a.getD [] ++ [c])) rest]
    rw [show (c :: cs : List Char) = [c] ++ cs from rfl, accPush_append]
    simp [accPush]

/-- Lexing one wellformed segment from the neutral state appends exactly the
segment's payload to the accumulator and returns to the neutral state. -/
theorem tokLoop_seg :
    ∀ (g : Seg), g.wf → ∀ (a : Option (List Char)) (rest : List Char),
      tokLoop TokState.neutral a (g.render ++ rest) =
        tokLoop TokState.neutral (accPush a g.payload) rest := by
  intro g hg a rest
  cases g with
  | plain c =>
    have hc : isSpecialByte c = false := hg
    simp only [Seg.render, Seg.payload, List.cons_append, List.nil_append,
      tokLoop, procChar_plain c a hc]
    simp [accPush]
  | escd c =>
    have e1 : procChar '\\' TokState.neutral a =
        Sum.inr (TokState.esc, a) := by
      simp [procChar, isSep]
    have e2 : procChar c TokState.esc a =
        Sum.inr (TokState.neutral, some (a.getD [] ++ [c])) := by
      simp [procChar]
    simp only [Seg.render, Seg.payload, List.cons_append, List.nil_append,
      tokLoop, e1, e2]
    simp [accPush]
  | squote s =>
    have hs : '\'' ∉ s := hg
    have e1 : procChar '\'' TokState.neutral a =
        Sum.inr (TokState.sq, a) := by
      simp [procChar, isSep]
    simp only [Seg.render, Seg.payload, List.cons_append, tokLoop, e1]
    simpa [List.append_assoc] using tokLoop_sq s hs a rest
  | dquote s =>
    have hs : '"' ∉ s := hg
    have e1 : procChar '"' TokState.neutral a =
        Sum.inr (TokState.dq, a) := by
      simp [procChar, isSep]
    simp only [Seg.render, Seg.payload, List.cons_append, tokLoop, e1]
    simpa [List.append_assoc] using tokLoop_dq s hs a rest

/-- Lexing a list of wellformed segments appends the concatenation of their
payloads to the accumulator. -/
theorem tokLoop_segs :
    ∀ (segs : List Seg), (∀ g ∈ segs, g.wf) →
      ∀ (a : Option (List Char)) (rest : List Char),
      tokLoop TokState.neutral a ((segs.map Seg.render).join ++ rest) =
        tokLoop TokState.neutral (accPush a (segs.map Seg.payload).join)
          rest := by
  intro segs
  induction segs with
  | nil => intro _ a rest; simp [accPush]
  | cons g gs ih =>
    intro h a rest
    simp only [List.map_cons, List.join_cons, List.append_assoc]
    rw [tokLoop_seg g (h g (List.mem_cons_self g gs)) a]
    rw [ih (fun x hx => h x (List.mem_cons_of_mem g hx))]
    rw [accPush_append]

/-- The token stream of a wellformed segment list with nonempty payload is a
single Text token carrying the full payload, then EOF. -/
theorem tokenize_segs (segs : List Seg) (hwf : ∀ g ∈ segs, g.wf)
    (hne : (segs.map Seg.payload).join ≠ []) :
    tokenize ((segs.map Seg.render).join) =
      [Token.str ((segs.map Seg.payload).join), Token.eof] := by
  have h1 : tokenizer_next ⟨TokState.neutral, none⟩
      ((segs.map Seg.render).join) =
      (Token.str ((segs.map Seg.payload).join),
       ⟨TokState.neutral, none⟩, []) := by
    show tokLoop TokState.neutral none _ = _
    rw [← List.append_nil ((segs.map Seg.render).join),
      tokLoop_segs segs hwf none []]
    cases hp : (segs.map Seg.payload).join with
    | nil => exact absurd hp hne
    | cons x xs => simp [accPush, tokLoop, tokenizer_eof, tokenizer_string]
  show tokGo (((segs.map Seg.render).join).length + 1 + 1) _ _ = _
  rw [show tokGo (((segs.map Seg.render).join).length + 1 + 1)
        ⟨TokState.neutral, none⟩ ((segs.map Seg.render).join) =
      Token.str ((segs.map Seg.payload).join) ::
        tokGo (((segs.map Seg.render).join).length + 1)
          ⟨TokState.neutral, none⟩ [] from by simp [tokGo, h1]]
  rw [show tokGo (((segs.map Seg.render).join).length + 1)
        ⟨TokState.neutral, none⟩ [] = [Token.eof] from rfl]

/-- C8 counterexample.  The input `''` consists only of quoted text (an
empty single-quoted run, a wellformed segment) and contains no special
bytes, yet the pipeline produces no Argument element at all — not an
Argument carrying the empty string — because the empty quoted string never
starts a text accumulation. -/
theorem C8_counterexample :
    ([Seg.squote []].map Seg.render).join = "''".toList ∧
    (∀ g ∈ [Seg.squote ([] : List Char)], g.wf) ∧
    (parse (tokenize "''".toList)).1 = [Element.eof] := by
  exact ⟨rfl, by decide, rfl⟩

/-- C8 amended: for every input made of quoted/escaped text segments with no
special bytes whose unquoted/unescaped payload is nonempty, the
Lexer-GrammarMatcher pipeline yields exactly one Argument element, whose
payload is the original text with quotes and escape characters removed
(followed by the EndOfInput element); when the payload is empty the input
yields no Argument element at all. -/
theorem C8_amended (segs : List Seg) (hwf : ∀ g ∈ segs, g.wf)
    (hne : (segs.map Seg.payload).join ≠ []) :
    (parse (tokenize ((segs.map Seg.render).join))).1 =
      [Element.arg ((segs.map Seg.payload).join), Element.eof] := by
  rw [tokenize_segs segs hwf hne]
  rfl

/-- C8 witness: the input `"a b"` (one double-quoted segment) lexes and
parses to the single argument `a b`. -/
theorem C8_witness :
    (parse (tokenize ("\"a b\"".toList))).1 =
      [Element.arg ("a b".toList), Element.eof] :=
  C8_amended [Seg.dquote ['a', ' ', 'b']] (by decide) (by decide)

end Shall
